import Mathlib

/-!
Shallow embedding of the renderer layer of FSG_Mod_Assistant:
  * `src/renderer/renderJS/savegame_ui.js` — the `fromMain_saveInfo` render
    pass (mod-record derivation, selection lists, counters, DOM list),
    `makeLine`, `updateCounts` and `clientChangeFilter`;
  * `src/renderer/renderJS/notes_ui.js` — `clientSetNote`;
  * the preload bridge (copy-confirm window) — the allow-listed
    `l10n.receive` / `mods.receive` subscription functions.

JavaScript strings are Lean `String`s; JS objects used as string-keyed maps
are association lists; JS `Set`s of farm ids are lists; `null`/`undefined`
fields are `Option`s.  Machine arithmetic does not occur (all numbers are
small counters), so counts are `Nat`.
-/

/-- Lexicographic comparison of character lists by numeric character code,
mirroring the default JavaScript `Array.prototype.sort()` string comparison
used on mod names. -/
def charsLt : List Char → List Char → Bool
  | [], [] => false
  | [], _ :: _ => true
  | _ :: _, [] => false
  | a :: as, b :: bs =>
    if a.toNat < b.toNat then true
    else if b.toNat < a.toNat then false
    else charsLt as bs

/-- Strict lexicographic order on strings (JS `<` on sort keys). -/
def strLt (a b : String) : Bool := charsLt a.data b.data

/-- Non-strict lexicographic order on strings, the comparator handed to the
sort of the mod-name union. -/
def strLe (a b : String) : Bool := !(charsLt b.data a.data)

/-- JS `String.prototype.endsWith`, used for the reserved suffix test
`thisMod.endsWith(".csv")`. -/
def strEndsWith (s suffix : String) : Bool := suffix.data.isSuffixOf s.data

/-- JS `String.prototype.startsWith`, used for the DLC test
`thisMod.startsWith("pdlc_")`. -/
def strStartsWith (s pre : String) : Bool := pre.data.isPrefixOf s.data

/-- `modDesc` of an installed mod: the fields of
`haveModSet[thisMod].modDesc` read by the render pass. -/
structure ModDesc where
  version : String
  storeItems : Nat
  scriptFiles : Nat
deriving DecidableEq, Repr

/-- One entry of `modCollect.modList[thisCollection].mods`: the fields of an
installed-collection mod read by the render pass. -/
structure CollectMod where
  shortName : String
  modDesc : ModDesc
  title : String
  uuid : Option String
deriving DecidableEq, Repr

/-- One entry of `savegame.mods`: version, title and the set of farms using
the mod (a JS `Set`, modelled as its element list). -/
structure SaveMod where
  version : String
  title : String
  farms : List String
deriving DecidableEq, Repr

/-- The savegame snapshot `modCollect.opts.thisSaveGame`. -/
structure SaveGame where
  mods : List (String × SaveMod)
  mapMod : String
  singleFarm : Bool
  errorList : List (String × String)
deriving DecidableEq, Repr

/-- The full input of one `fromMain_saveInfo` push: the current collection
key (`thisCollection`), that collection's installed mods
(`modCollect.modList[thisCollection].mods`), the mod-hub catalog
(`modCollect.modHub.list.mods`, keys with their hub ids) and the savegame
snapshot. -/
structure Snapshot where
  collectKey : String
  collectionMods : List CollectMod
  modHub : List (String × Nat)
  savegame : SaveGame
deriving DecidableEq, Repr

/-- The per-mod record `thisModDetail` built inside the render loop. -/
structure ModDetail where
  title : Option String
  version : Option String
  scriptOnly : Bool
  isLoaded : Bool
  isUsed : Bool
  isPresent : Bool
  isDLC : Bool
  usedBy : Option (List String)
  versionMismatch : Bool
  isModHub : Bool
deriving DecidableEq, Repr

/-- `haveModSet` lookup: the JS loop assigns
`haveModSet[thisMod.fileDetail.shortName] = thisMod` in order, so a later
entry with the same short name overwrites an earlier one. -/
def haveLookup (snap : Snapshot) (name : String) : Option CollectMod :=
  snap.collectionMods.reverse.find? (fun m => m.shortName == name)

/-- `savegame.mods[name]` lookup. -/
def saveLookup (snap : Snapshot) (name : String) : Option SaveMod :=
  snap.savegame.mods.lookup name

/-- `modCollect.modHub.list.mods[name]` lookup. -/
def hubLookup (snap : Snapshot) (name : String) : Option Nat :=
  snap.modHub.lookup name

/-- Modelled from the spec: `fsgUtil.escapeSpecial` lives outside the three
provided source files; the spec describes no transformation for it, so
titles are carried through unchanged. -/
def escapeSpecial (s : String) : String := s

/-- The initial `thisModDetail` object literal. -/
def initDetail (snap : Snapshot) (name : String) : ModDetail :=
  { title := none
    version := none
    scriptOnly := false
    isLoaded := false
    isUsed := false
    isPresent := false
    isDLC := false
    usedBy := none
    versionMismatch := false
    isModHub := (hubLookup snap name).isSome }

/-- The `thisMod.startsWith("pdlc_")` branch. -/
def stepPdlc (name : String) (d : ModDetail) : ModDetail :=
  if strStartsWith name "pdlc_" then { d with isDLC := true, isPresent := true } else d

/-- The first `thisMod === savegame.mapMod` branch. -/
def stepMapFirst (snap : Snapshot) (name : String) (d : ModDetail) : ModDetail :=
  if name == snap.savegame.mapMod then { d with isUsed := true, isLoaded := true } else d

/-- The `typeof savegame.mods[thisMod] !== "undefined"` branch. -/
def stepSave (snap : Snapshot) (name : String) (d : ModDetail) : ModDetail :=
  match saveLookup snap name with
  | none => d
  | some sm =>
    let d := { d with version := some sm.version, title := some sm.title, isLoaded := true }
    if sm.farms.length > 0 then { d with isUsed := true, usedBy := some sm.farms } else d

/-- The script-only sub-branch of the `haveModSet` block: when the installed
mod has no store items and at least one script file, set `scriptOnly`, and
also mark it used when it is already loaded (setting `scriptOnly` does not
change `isLoaded`, so the loaded test is read off the incoming record). -/
def stepHaveScript (cm : CollectMod) (d : ModDetail) : ModDetail :=
  if cm.modDesc.storeItems < 1 ∧ cm.modDesc.scriptFiles > 0 then
    if d.isLoaded then { d with scriptOnly := true, isUsed := true }
    else { d with scriptOnly := true }
  else d

/-- The version sub-branch of the `haveModSet` block: adopt the installed
version when none was taken from the savegame, otherwise flag a mismatch
when the two version strings differ. -/
def stepHaveVersion (cm : CollectMod) (d : ModDetail) : ModDetail :=
  match d.version with
  | none => { d with version := some cm.modDesc.version }
  | some v => if v ≠ cm.modDesc.version then { d with versionMismatch := true } else d

/-- The `typeof haveModSet[thisMod] !== "undefined"` branch, in statement
order: mark present, script-only sub-branch, version sub-branch, then take
the escaped installed title. -/
def stepHave (snap : Snapshot) (name : String) (d : ModDetail) : ModDetail :=
  match haveLookup snap name with
  | none => d
  | some cm =>
    { stepHaveVersion cm (stepHaveScript cm { d with isPresent := true }) with
        title := some (escapeSpecial cm.title) }

/-- The second `thisMod === savegame.mapMod` branch, which also clears
`usedBy`. -/
def stepMapFinal (snap : Snapshot) (name : String) (d : ModDetail) : ModDetail :=
  if name == snap.savegame.mapMod then
    { d with isUsed := true, isLoaded := true, usedBy := none }
  else d

/-- The complete derivation of `thisModDetail` for one mod name, in the
order the statements appear in the loop body. -/
def mkDetail (snap : Snapshot) (name : String) : ModDetail :=
  stepMapFinal snap name
    (stepHave snap name
      (stepSave snap name
        (stepMapFirst snap name
          (stepPdlc name (initDetail snap name)))))

/-- One rendered mod entry (`fsgUtil.useTemplate("savegame_mod", ...)`),
keeping the template slots the render pass fills in.  Badges are the
`savegame_*` badge names with their colour class, in push order. -/
structure Line where
  colorClass : String
  hubID : Option Nat
  name : String
  title : Option String
  hideShowFarms : Bool
  farms : List String
  badges : List (String × String)
deriving DecidableEq, Repr

/-- The `colorClass` switch of `makeLine`: fixed priority
missing > version-mismatch > used > loaded > default. -/
def lineColorClass (mod : ModDetail) : String :=
  if !mod.isPresent then "list-group-item-danger"
  else if mod.versionMismatch then "list-group-item-info"
  else if mod.isUsed then "list-group-item-success"
  else if mod.isLoaded then "list-group-item-warning"
  else "list-group-item-secondary"

/-- The badge list `displayBadge` of `makeLine`: the five conditional pushes
followed by one lower-cased badge per true flag of
`[versionMismatch, scriptOnly, isUsed, isLoaded]`. -/
def lineBadges (mod : ModDetail) : List (String × String) :=
  (if !mod.isModHub && !mod.isDLC then [("nohub", "info")] else []) ++
  (if mod.isDLC then [("dlc", "info")] else []) ++
  (if !mod.isPresent then [("missing", "danger")] else []) ++
  (if !mod.isUsed then [("unused", "warning")] else []) ++
  (if !mod.isLoaded then [("inactive", "warning")] else []) ++
  (if mod.versionMismatch then [("versionmismatch", "dark")] else []) ++
  (if mod.scriptOnly then [("scriptonly", "dark")] else []) ++
  (if mod.isUsed then [("isused", "dark")] else []) ++
  (if mod.isLoaded then [("isloaded", "dark")] else [])

/-- `makeLine` as a pure value (its counter increments are threaded by the
loop, see `processOne`). -/
def makeLine (name : String) (mod : ModDetail) (singleFarm : Bool) (hubID : Option Nat) :
    Line :=
  { colorClass := lineColorClass mod
    hubID := hubID
    name := name
    title := mod.title
    hideShowFarms := mod.usedBy ≠ none ∧ ¬singleFarm
    farms := (mod.usedBy.getD [])
    badges := lineBadges mod }

/-- The four `selectList` arrays. -/
structure SelectLists where
  inactive : List String
  unused : List String
  nohub : List String
  active : List String
deriving DecidableEq, Repr

/-- The `selectCount` object. -/
structure Counts where
  dlc : Nat
  missing : Nat
  scriptonly : Nat
  isloaded : Nat
  isused : Nat
  inactive : Nat
  unused : Nat
  nohub : Nat
  active : Nat
deriving DecidableEq, Repr

/-- State threaded through the `for ... of Array.from(fullModSet).sort()`
loop: the selection lists, the five counters `makeLine` increments, the
rendered entries pushed to `modSetHTML`, and the derived records. -/
structure LoopState where
  lists : SelectLists
  dlc : Nat
  missing : Nat
  scriptonly : Nat
  isused : Nat
  isloaded : Nat
  lines : List Line
  records : List (String × ModDetail)
deriving DecidableEq, Repr

/-- Loop state at the top of the handler, after every `selectList` array and
`selectCount` field has been reset. -/
def initLoopState : LoopState :=
  { lists := { inactive := [], unused := [], nohub := [], active := [] }
    dlc := 0, missing := 0, scriptonly := 0, isused := 0, isloaded := 0
    lines := [], records := [] }

/-- One non-`.csv` iteration of the loop body: derive the record, push the
composite key `thisCollection--uuid` onto each selection list whose
condition holds (only when the installed mod has a usable uuid), apply the
counter increments of `makeLine`, and append the rendered entry. -/
def processOne (snap : Snapshot) (st : LoopState) (name : String) : LoopState :=
  let d := mkDetail snap name
  let lists :=
    match (haveLookup snap name).bind (fun cm => cm.uuid) with
    | none => st.lists
    | some uuid =>
      let key := snap.collectKey ++ "--" ++ uuid
      { inactive := st.lists.inactive ++ (if d.isLoaded = false then [key] else [])
        unused := st.lists.unused ++ (if d.isUsed = false then [key] else [])
        nohub := st.lists.nohub ++ (if d.isModHub = false then [key] else [])
        active := st.lists.active ++ (if d.isLoaded = true then [key] else []) }
  { lists := lists
    dlc := st.dlc + (if d.isDLC then 1 else 0)
    missing := st.missing + (if !d.isPresent then 1 else 0)
    scriptonly := st.scriptonly + (if d.scriptOnly then 1 else 0)
    isused := st.isused + (if d.isUsed then 1 else 0)
    isloaded := st.isloaded + (if d.isLoaded then 1 else 0)
    lines := st.lines ++ [makeLine name d snap.savegame.singleFarm (hubLookup snap name)]
    records := st.records ++ [(name, d)] }

/-- The sorted-union loop with the `.csv` early `return`: the boolean is
`true` when the loop ran to completion and `false` when a `.csv` name
aborted the handler.  In both cases the returned state is the value of the
module-level variables when the handler stopped. -/
def processNames (snap : Snapshot) : List String → LoopState → Bool × LoopState
  | [], st => (true, st)
  | name :: rest, st =>
    if strEndsWith name ".csv" then (false, st)
    else processNames snap rest (processOne snap st name)

/-- `fullModSet` as the handler iterates it: the union of installed short
names and savegame mod names, deduplicated (a JS `Set`) and sorted
ascending by the lexicographic comparator. -/
def sortedUnion (snap : Snapshot) : List String :=
  ((snap.collectionMods.map (fun m => m.shortName)) ++
    (snap.savegame.mods.map (fun p => p.1))).dedup.insertionSort
    (fun a b => strLe a b = true)

/-- One entry of the `modList` container: either the error template pushed
for a non-empty `savegame.errorList`, or a rendered mod entry. -/
inductive DomEntry where
  | error (errors : List (String × String)) : DomEntry
  | mod (line : Line) : DomEntry
deriving DecidableEq, Repr

/-- The error entries pushed onto `modSetHTML` before the loop. -/
def errorEntries (snap : Snapshot) : List DomEntry :=
  if snap.savegame.errorList.length > 0 then [DomEntry.error snap.savegame.errorList] else []

/-- Observable window state: the `selectList` / `selectCount` module
variables, the `modList` container's content, and the counter labels
`updateCounts` writes. -/
structure UIState where
  selectList : SelectLists
  selectCount : Counts
  modListDOM : List DomEntry
  displayedCounts : Counts
deriving DecidableEq, Repr

/-- Window state at page load: empty lists, zero counters, empty list
container. -/
def initUIState : UIState :=
  { selectList := { inactive := [], unused := [], nohub := [], active := [] }
    selectCount := { dlc := 0, missing := 0, scriptonly := 0, isloaded := 0, isused := 0,
                     inactive := 0, unused := 0, nohub := 0, active := 0 }
    modListDOM := []
    displayedCounts := { dlc := 0, missing := 0, scriptonly := 0, isloaded := 0, isused := 0,
                         inactive := 0, unused := 0, nohub := 0, active := 0 } }

/-- The whole `fromMain_saveInfo` handler.  On completion it assigns the
list-length counters, replaces the `modList` container in one pass and runs
`updateCounts`; on a `.csv` abort it returns before any of that, leaving
the container and the displayed counters as the previous pass left them
(the module variables keep the partially rebuilt values). -/
def renderPass (prev : UIState) (snap : Snapshot) : UIState :=
  let res := processNames snap (sortedUnion snap) initLoopState
  let st := res.2
  let counts : Counts :=
    { dlc := st.dlc, missing := st.missing, scriptonly := st.scriptonly,
      isloaded := st.isloaded, isused := st.isused,
      inactive := 0, unused := 0, nohub := 0, active := 0 }
  if res.1 then
    let fullCounts : Counts :=
      { counts with
          nohub := st.lists.nohub.length
          inactive := st.lists.inactive.length
          unused := st.lists.unused.length
          active := st.lists.active.length }
    { selectList := st.lists
      selectCount := fullCounts
      modListDOM := errorEntries snap ++ st.lines.map DomEntry.mod
      displayedCounts := fullCounts }
  else
    { selectList := st.lists
      selectCount := counts
      modListDOM := prev.modListDOM
      displayedCounts := prev.displayedCounts }

/-- The records derived by one pass over a snapshot (complete or aborted). -/
def passRecords (snap : Snapshot) : List (String × ModDetail) :=
  (processNames snap (sortedUnion snap) initLoopState).2.records

/-- The fixed filter-key list of `clientChangeFilter`. -/
def filterNames : List String :=
  ["dlc", "missing", "scriptonly", "isloaded", "isused", "inactive", "unused", "nohub"]

/-- Visibility of one mod entry under `clientChangeFilter`: `checked` is the
set of checked filter checkboxes; with zero checked the entry is shown,
otherwise it is shown exactly when it carries a `savegame_*` badge for every
checked filter. -/
def entryShown (checked : List String) (badges : List (String × String)) : Bool :=
  let activeFilters := filterNames.filter (fun f => checked.contains f)
  if activeFilters.length = 0 then true
  else activeFilters.all (fun f => (badges.map (fun b => b.1)).contains f)

/-- `clientChangeFilter` over the rendered entries: pairs each entry with
whether it is left visible (`d-none` removed) or hidden (`d-none` added). -/
def clientChangeFilter (checked : List String) (items : List Line) : List (Line × Bool) :=
  items.map (fun l => (l, entryShown checked l.badges))

/-- State of the notes window: the active collection key received from
`fromMain_collectionName`, and the bound input fields with their current
values. -/
structure NotesState where
  thisCollection : Option String
  fields : List (String × String)
deriving DecidableEq, Repr

/-- The payload of one `setNote` IPC message. -/
structure SetNoteMsg where
  fieldId : String
  value : String
  collectKey : Option String
deriving DecidableEq, Repr

/-- `clientSetNote`: reads the edited field by id and forwards exactly one
`setNote` message with the field id, its value and the active collection;
when no element has the id, `fsgUtil.byId` yields `null` and reading
`.value` throws before any message is sent. -/
def clientSetNote (st : NotesState) (id : String) : List SetNoteMsg :=
  match st.fields.lookup id with
  | some v => [{ fieldId := id, value := v, collectKey := st.thisCollection }]
  | none => []

/-- The allow-list of the `l10n.receive` bridge function. -/
def l10nValidChannels : List String :=
  ["fromMain_getText_return", "fromMain_l10n_refresh"]

/-- The allow-list of the `mods.receive` bridge function. -/
def modsValidChannels : List String :=
  ["fromMain_confirmList"]

/-- The shared body of the bridge `receive` functions: register the callback
when the channel is allow-listed, silently drop the request otherwise.
Callbacks are identified by a tag of an arbitrary type. -/
def bridgeReceive {κ : Type} (validChannels : List String)
    (listeners : List (String × κ)) (channel : String) (cb : κ) : List (String × κ) :=
  if validChannels.contains channel then (channel, cb) :: listeners else listeners

/-- `l10n.receive` of the copy-confirm preload. -/
def l10nReceive {κ : Type} (listeners : List (String × κ)) (channel : String) (cb : κ) :
    List (String × κ) :=
  bridgeReceive l10nValidChannels listeners channel cb

/-- `mods.receive` of the copy-confirm preload. -/
def modsReceive {κ : Type} (listeners : List (String × κ)) (channel : String) (cb : κ) :
    List (String × κ) :=
  bridgeReceive modsValidChannels listeners channel cb

/-- Concrete snapshot used to exercise the render pass: two installed mods,
one of them also recorded in the savegame with a different version. -/
def snapOne : Snapshot :=
  { collectKey := "col1"
    collectionMods :=
      [{ shortName := "modA"
         modDesc := { version := "1.1.0.0", storeItems := 1, scriptFiles := 0 }
         title := "Mod A", uuid := some "u1" },
       { shortName := "modB"
         modDesc := { version := "2.0.0.0", storeItems := 0, scriptFiles := 3 }
         title := "Mod B", uuid := some "u2" }]
    modHub := [("modA", 7)]
    savegame :=
      { mods := [("modA", { version := "1.0.0.0", title := "Mod A", farms := ["f1"] }),
                 ("modC", { version := "3.0.0.0", title := "Mod C", farms := [] })]
        mapMod := "modC", singleFarm := false, errorList := [("badSave", "x")] } }

/-- A second, different concrete snapshot, with no reserved `.csv` name. -/
def snapTwo : Snapshot :=
  { collectKey := "col2"
    collectionMods :=
      [{ shortName := "modZ"
         modDesc := { version := "9.0.0.0", storeItems := 2, scriptFiles := 0 }
         title := "Mod Z", uuid := some "u9" }]
    modHub := []
    savegame :=
      { mods := [], mapMod := "mapAlpine", singleFarm := true, errorList := [] } }

/-- A concrete snapshot whose sorted union is `[alpha, beta.csv, zeta]`, so
the pass aborts at `beta.csv`. -/
def snapCsv : Snapshot :=
  { collectKey := "col3"
    collectionMods :=
      [{ shortName := "alpha"
         modDesc := { version := "1.0.0.0", storeItems := 1, scriptFiles := 0 }
         title := "Alpha", uuid := some "ua" }]
    modHub := []
    savegame :=
      { mods := [("beta.csv", { version := "0", title := "", farms := [] }),
                 ("zeta", { version := "1.0.0.0", title := "Zeta", farms := [] })]
        mapMod := "", singleFarm := false, errorList := [] } }

/-- A concrete rendered entry carrying the `dlc` and `isloaded` badges. -/
def sampleLine : Line :=
  { colorClass := "list-group-item-secondary"
    hubID := none
    name := "modQ"
    title := some "Mod Q"
    hideShowFarms := false
    farms := []
    badges := [("dlc", "info"), ("isloaded", "dark")] }

section FieldLemmas

variable (snap : Snapshot) (name : String) (d : ModDetail)

theorem stepPdlc_version : (stepPdlc name d).version = d.version := by
  unfold stepPdlc; split <;> rfl

theorem stepPdlc_versionMismatch : (stepPdlc name d).versionMismatch = d.versionMismatch := by
  unfold stepPdlc; split <;> rfl

theorem stepMapFirst_version : (stepMapFirst snap name d).version = d.version := by
  unfold stepMapFirst; split <;> rfl

theorem stepMapFirst_versionMismatch :
    (stepMapFirst snap name d).versionMismatch = d.versionMismatch := by
  unfold stepMapFirst; split <;> rfl

theorem stepMapFinal_versionMismatch :
    (stepMapFinal snap name d).versionMismatch = d.versionMismatch := by
  unfold stepMapFinal; split <;> rfl

theorem stepSave_versionMismatch : (stepSave snap name d).versionMismatch = d.versionMismatch := by
  unfold stepSave
  cases saveLookup snap name <;> simp
  split <;> rfl

theorem stepSave_version_of_some {sm : SaveMod} (h : saveLookup snap name = some sm) :
    (stepSave snap name d).version = some sm.version := by
  unfold stepSave
  rw [h]
  simp
  split <;> rfl

theorem stepHaveScript_version (cm : CollectMod) :
    (stepHaveScript cm d).version = d.version := by
  unfold stepHaveScript; split_ifs <;> rfl

theorem stepHaveScript_versionMismatch (cm : CollectMod) :
    (stepHaveScript cm d).versionMismatch = d.versionMismatch := by
  unfold stepHaveScript; split_ifs <;> rfl

theorem stepHaveVersion_versionMismatch_of_some {v : String} (cm : CollectMod)
    (hv : d.version = some v) :
    (stepHaveVersion cm d).versionMismatch =
      (if v ≠ cm.modDesc.version then true else d.versionMismatch) := by
  unfold stepHaveVersion
  rw [hv]
  by_cases h : v = cm.modDesc.version <;> simp [h]

theorem stepHave_versionMismatch_of_some {cm : CollectMod} {v : String}
    (hh : haveLookup snap name = some cm) (hv : d.version = some v) :
    (stepHave snap name d).versionMismatch =
      (if v ≠ cm.modDesc.version then true else d.versionMismatch) := by
  unfold stepHave
  rw [hh]
  have hv2 : (stepHaveScript cm { d with isPresent := true }).version = some v := by
    rw [stepHaveScript_version]; exact hv
  simp only [stepHaveVersion_versionMismatch_of_some _ _ hv2,
    stepHaveScript_versionMismatch]

end FieldLemmas

section PresenceLemmas

variable (snap : Snapshot) (name : String) (d : ModDetail)

theorem stepPdlc_isPresent_of_pdlc (h : strStartsWith name "pdlc_" = true) :
    (stepPdlc name d).isPresent = true := by
  unfold stepPdlc; rw [h]; simp

theorem stepMapFirst_isPresent : (stepMapFirst snap name d).isPresent = d.isPresent := by
  unfold stepMapFirst; split <;> rfl

theorem stepSave_isPresent : (stepSave snap name d).isPresent = d.isPresent := by
  unfold stepSave
  cases saveLookup snap name
  · rfl
  · dsimp only; split <;> rfl

theorem stepHaveScript_isPresent (cm : CollectMod) :
    (stepHaveScript cm d).isPresent = d.isPresent := by
  unfold stepHaveScript; split_ifs <;> rfl

theorem stepHaveVersion_isPresent (cm : CollectMod) :
    (stepHaveVersion cm d).isPresent = d.isPresent := by
  unfold stepHaveVersion
  split
  · rfl
  · split_ifs <;> rfl

theorem stepHave_isPresent_of_true (h : d.isPresent = true) :
    (stepHave snap name d).isPresent = true := by
  unfold stepHave
  cases haveLookup snap name
  · exact h
  · simp [stepHaveVersion_isPresent, stepHaveScript_isPresent]

theorem stepMapFinal_isPresent : (stepMapFinal snap name d).isPresent = d.isPresent := by
  unfold stepMapFinal; split <;> rfl

end PresenceLemmas

theorem mkDetail_isPresent_of_pdlc (snap : Snapshot) (name : String)
    (h : strStartsWith name "pdlc_" = true) : (mkDetail snap name).isPresent = true := by
  unfold mkDetail
  rw [stepMapFinal_isPresent]
  apply stepHave_isPresent_of_true
  rw [stepSave_isPresent, stepMapFirst_isPresent]
  exact stepPdlc_isPresent_of_pdlc name _ h

theorem lineBadges_no_missing (mod : ModDetail) (h : mod.isPresent = true) :
    ¬ "missing" ∈ (lineBadges mod).map Prod.fst := by
  obtain ⟨t, ver, so, ld, us, pres, dlc, ub, vm, hub⟩ := mod
  simp only at h
  subst h
  cases so <;> cases ld <;> cases us <;> cases dlc <;> cases vm <;> cases hub <;>
    simp [lineBadges]

theorem lineColorClass_ne_danger (mod : ModDetail) (h : mod.isPresent = true) :
    lineColorClass mod ≠ "list-group-item-danger" := by
  unfold lineColorClass
  rw [h]
  simp only [Bool.not_true, Bool.false_eq_true, if_false]
  split_ifs <;> decide

/-- C2: the record derived for the mod name equal to the savegame's
designated map-mod has `isUsed = true`, `isLoaded = true` and
`usedBy = null`, whatever the rest of the snapshot holds. -/
theorem mapMod_record_used_loaded_unattributed (snap : Snapshot) :
    (mkDetail snap snap.savegame.mapMod).isUsed = true ∧
    (mkDetail snap snap.savegame.mapMod).isLoaded = true ∧
    (mkDetail snap snap.savegame.mapMod).usedBy = none := by
  unfold mkDetail stepMapFinal
  simp

/-- C3: for a mod name present both in the installed collection and in the
savegame's recorded mod list, the derived record has
`versionMismatch = true` exactly when the two version strings differ. -/
theorem versionMismatch_iff_versions_differ (snap : Snapshot) (name : String)
    (sm : SaveMod) (cm : CollectMod)
    (hs : saveLookup snap name = some sm) (hh : haveLookup snap name = some cm) :
    ((mkDetail snap name).versionMismatch = true ↔ sm.version ≠ cm.modDesc.version) := by
  unfold mkDetail
  rw [stepMapFinal_versionMismatch]
  have hpre :
      (stepSave snap name (stepMapFirst snap name
        (stepPdlc name (initDetail snap name)))).version = some sm.version :=
    stepSave_version_of_some _ _ _ hs
  rw [stepHave_versionMismatch_of_some snap name _ hh hpre]
  rw [stepSave_versionMismatch, stepMapFirst_versionMismatch, stepPdlc_versionMismatch]
  by_cases h : sm.version = cm.modDesc.version <;> simp [h, initDetail]

/-- C10: a mod name with the `pdlc_` prefix always yields a record with
`isPresent = true`, so its rendered entry never carries the `missing` badge
nor the danger colour class. -/
theorem pdlc_always_present_never_missing (snap : Snapshot) (name : String)
    (singleFarm : Bool) (hubID : Option Nat) (h : strStartsWith name "pdlc_" = true) :
    (mkDetail snap name).isPresent = true ∧
    ¬ "missing" ∈ ((makeLine name (mkDetail snap name) singleFarm hubID).badges.map Prod.fst) ∧
    (makeLine name (mkDetail snap name) singleFarm hubID).colorClass ≠
      "list-group-item-danger" := by
  have hp := mkDetail_isPresent_of_pdlc snap name h
  exact ⟨hp, lineBadges_no_missing _ hp, lineColorClass_ne_danger _ hp⟩

/-- C7: editing a bound notes field issues exactly one outbound `setNote`
message, carrying the field id, the field's current value and the active
collection key. -/
theorem clientSetNote_single_message (st : NotesState) (id v : String)
    (h : st.fields.lookup id = some v) :
    clientSetNote st id = [{ fieldId := id, value := v, collectKey := st.thisCollection }] ∧
    (clientSetNote st id).length = 1 := by
  unfold clientSetNote
  rw [h]
  exact ⟨rfl, rfl⟩

theorem clientSetNote_single_message_witness :
    (NotesState.mk (some "col7") [("notes_field", "hello")]).fields.lookup "notes_field" =
      some "hello" ∧
    (clientSetNote (NotesState.mk (some "col7") [("notes_field", "hello")]) "notes_field" =
      [{ fieldId := "notes_field", value := "hello", collectKey := some "col7" }] ∧
    (clientSetNote (NotesState.mk (some "col7") [("notes_field", "hello")])
      "notes_field").length = 1) :=
  ⟨by decide,
   clientSetNote_single_message (NotesState.mk (some "col7") [("notes_field", "hello")])
     "notes_field" "hello" (by decide)⟩

/-- C8: a bridge `receive` call registers a listener exactly when the
channel is on that bridge's hard-coded allow-list; any other channel name
leaves the listener table unchanged. -/
theorem bridge_receive_allowlist (ls : List (String × Nat)) (channel : String) (cb : Nat) :
    (channel ∈ l10nValidChannels →
      l10nReceive ls channel cb = (channel, cb) :: ls) ∧
    (¬ channel ∈ l10nValidChannels → l10nReceive ls channel cb = ls) ∧
    (channel ∈ modsValidChannels →
      modsReceive ls channel cb = (channel, cb) :: ls) ∧
    (¬ channel ∈ modsValidChannels → modsReceive ls channel cb = ls) := by
  unfold l10nReceive modsReceive bridgeReceive
  refine ⟨fun h => ?_, fun h => ?_, fun h => ?_, fun h => ?_⟩ <;> simp [h]

theorem bridge_receive_allowlist_witness :
    ("fromMain_l10n_refresh" ∈ l10nValidChannels ∧
      l10nReceive ([] : List (String × Nat)) "fromMain_l10n_refresh" 3 =
        [("fromMain_l10n_refresh", 3)]) ∧
    (¬ "toMain_sneaky" ∈ modsValidChannels ∧
      modsReceive ([("fromMain_confirmList", 1)] : List (String × Nat)) "toMain_sneaky" 3 =
        [("fromMain_confirmList", 1)]) :=
  ⟨⟨by decide, (bridge_receive_allowlist [] "fromMain_l10n_refresh" 3).1 (by decide)⟩,
   ⟨by decide,
    (bridge_receive_allowlist [("fromMain_confirmList", 1)] "toMain_sneaky" 3).2.2.2
      (by decide)⟩⟩

theorem processNames_complete (snap : Snapshot) :
    ∀ (l : List String) (st : LoopState),
      (∀ n ∈ l, strEndsWith n ".csv" = false) → (processNames snap l st).1 = true := by
  intro l
  induction l with
  | nil => intro st _; rfl
  | cons n rest ih =>
    intro st h
    have hn : strEndsWith n ".csv" = false := h n (List.mem_cons_self n rest)
    simp only [processNames, hn, Bool.false_eq_true, if_false]
    exact ih _ (fun m hm => h m (List.mem_cons_of_mem n hm))

theorem processNames_abort (snap : Snapshot) :
    ∀ (l : List String) (st : LoopState) (c : String),
      c ∈ l → strEndsWith c ".csv" = true → (processNames snap l st).1 = false := by
  intro l
  induction l with
  | nil => intro st c hc _; exact absurd hc (List.not_mem_nil c)
  | cons n rest ih =>
    intro st c hc hcsv
    by_cases hn : strEndsWith n ".csv" = true
    · simp [processNames, hn]
    · have hcr : c ∈ rest := by
        rcases List.mem_cons.mp hc with h | h
        · exact absurd (h ▸ hcsv) hn
        · exact h
      simp only [processNames, hn, Bool.false_eq_true, if_false]
      exact ih _ c hcr hcsv

theorem renderPass_indep_of_prev (p1 p2 : UIState) (snap : Snapshot)
    (h : ∀ n ∈ sortedUnion snap, strEndsWith n ".csv" = false) :
    renderPass p1 snap = renderPass p2 snap := by
  have hc := processNames_complete snap (sortedUnion snap) initLoopState h
  unfold renderPass
  simp only [hc, if_true]

/-- C1: after a second savegame-analysis push whose pass completes, the
selection lists, the counters and the rendered mod-list DOM equal what the
second snapshot alone determines — nothing derived from the first push
survives. -/
theorem second_push_fully_replaces (prev : UIState) (s1 s2 : Snapshot)
    (h : ∀ n ∈ sortedUnion s2, strEndsWith n ".csv" = false) :
    renderPass (renderPass prev s1) s2 = renderPass initUIState s2 :=
  renderPass_indep_of_prev (renderPass prev s1) initUIState s2 h

/-- C6: the render pass is deterministic and accumulation-free: running it
twice on the same snapshot changes nothing, and the selection lists and
counters it leaves behind do not depend on the state the previous pass
left. -/
theorem renderPass_idempotent_deterministic (prev p1 p2 : UIState) (snap : Snapshot) :
    renderPass (renderPass prev snap) snap = renderPass prev snap ∧
    (renderPass p1 snap).selectList = (renderPass p2 snap).selectList ∧
    (renderPass p1 snap).selectCount = (renderPass p2 snap).selectCount := by
  unfold renderPass
  cases h : (processNames snap (sortedUnion snap) initLoopState).1 <;> simp [h]

/-- C9: a pass aborted by a `.csv` name leaves the mod-list container and
every displayed counter exactly as the previous pass left them. -/
theorem csv_abort_leaves_dom_unchanged (prev : UIState) (snap : Snapshot) (c : String)
    (hc : c ∈ sortedUnion snap) (hcsv : strEndsWith c ".csv" = true) :
    (renderPass prev snap).modListDOM = prev.modListDOM ∧
    (renderPass prev snap).displayedCounts = prev.displayedCounts := by
  have ha := processNames_abort snap (sortedUnion snap) initLoopState c hc hcsv
  unfold renderPass
  simp [ha]

theorem entryShown_iff (checked : List String) (bs : List (String × String)) :
    entryShown checked bs = true ↔
      ∀ f ∈ filterNames, f ∈ checked → f ∈ bs.map Prod.fst := by
  simp only [entryShown]
  split_ifs with h
  · simp only [true_iff]
    intro f hf hfc
    exfalso
    have hmem : f ∈ filterNames.filter (fun f => checked.contains f) :=
      List.mem_filter.mpr ⟨hf, by simpa using hfc⟩
    rw [List.length_eq_zero.mp h] at hmem
    exact List.not_mem_nil f hmem
  · rw [List.all_eq_true]
    constructor
    · intro hall f hf hfc
      have := hall f (List.mem_filter.mpr ⟨hf, by simpa using hfc⟩)
      simpa using this
    · intro hall f hf
      have h2 := List.mem_filter.mp hf
      simpa using hall f h2.1 (by simpa using h2.2)

/-- C5: with no filter checkbox checked every rendered entry stays visible;
with checkboxes checked an entry stays visible exactly when it carries the
badge of every checked filter — conjunction, not disjunction. -/
theorem clientChangeFilter_conjunctive (checked : List String) (items : List Line) :
    (∀ p ∈ clientChangeFilter ([] : List String) items, p.2 = true) ∧
    (∀ p ∈ clientChangeFilter checked items,
      (p.2 = true ↔ ∀ f ∈ filterNames, f ∈ checked → f ∈ p.1.badges.map Prod.fst)) := by
  constructor
  · intro p hp
    rcases List.mem_map.mp hp with ⟨l, _, rfl⟩
    rw [entryShown_iff]
    intro f _ hf
    exact absurd hf (List.not_mem_nil f)
  · intro p hp
    rcases List.mem_map.mp hp with ⟨l, _, rfl⟩
    exact entryShown_iff checked l.badges

theorem charsLt_cons_iff (a b : Char) (as bs : List Char) :
    charsLt (a :: as) (b :: bs) = true ↔
      a.toNat < b.toNat ∨ (a.toNat = b.toNat ∧ charsLt as bs = true) := by
  simp only [charsLt]
  split_ifs with h1 h2
  · simp [h1]
  · constructor
    · intro h; exact absurd h (by simp)
    · rintro (h | ⟨h, _⟩) <;> omega
  · have heq : a.toNat = b.toNat := by omega
    simp [heq, h1]

theorem charsLt_irrefl : ∀ l : List Char, charsLt l l = false := by
  intro l
  induction l with
  | nil => rfl
  | cons a as ih =>
    rw [Bool.eq_false_iff]
    intro h
    rcases (charsLt_cons_iff a a as as).mp h with h2 | ⟨_, h2⟩
    · omega
    · rw [ih] at h2; exact Bool.false_ne_true h2

theorem charsLt_trans : ∀ {x y z : List Char},
    charsLt x y = true → charsLt y z = true → charsLt x z = true := by
  intro x
  induction x with
  | nil =>
    intro y z h1 h2
    cases y with
    | nil => exact absurd h1 (by rw [charsLt_irrefl]; exact Bool.false_ne_true)
    | cons b bs =>
      cases z with
      | nil => exact absurd h2 (by simp [charsLt])
      | cons c cs => rfl
  | cons a as ih =>
    intro y z h1 h2
    cases y with
    | nil => exact absurd h1 (by simp [charsLt])
    | cons b bs =>
      cases z with
      | nil => exact absurd h2 (by simp [charsLt])
      | cons c cs =>
        rw [charsLt_cons_iff] at h1 h2 ⊢
        rcases h1 with h1 | ⟨h1, h1r⟩ <;> rcases h2 with h2 | ⟨h2, h2r⟩
        · left; omega
        · left; omega
        · left; omega
        · right; exact ⟨by omega, ih h1r h2r⟩

theorem charsLt_asymm {x y : List Char} (h : charsLt x y = true) : charsLt y x = false := by
  rw [Bool.eq_false_iff]
  intro h2
  have := charsLt_trans h h2
  rw [charsLt_irrefl] at this
  exact Bool.false_ne_true this

theorem charsLt_trichotomy : ∀ x y : List Char,
    charsLt x y = true ∨ charsLt y x = true ∨ x = y := by
  intro x
  induction x with
  | nil =>
    intro y
    cases y with
    | nil => right; right; rfl
    | cons b bs => left; rfl
  | cons a as ih =>
    intro y
    cases y with
    | nil => right; left; rfl
    | cons b bs =>
      rcases Nat.lt_trichotomy a.toNat b.toNat with h | h | h
      · left; rw [charsLt_cons_iff]; left; exact h
      · have hab : a = b := Char.ext (UInt32.ext h)
        rcases ih bs with h2 | h2 | h2
        · left; rw [charsLt_cons_iff]; right; exact ⟨h, h2⟩
        · right; left; rw [charsLt_cons_iff]; right; exact ⟨h.symm, h2⟩
        · right; right; rw [hab, h2]
      · right; left; rw [charsLt_cons_iff]; left; exact h

theorem strLe_trans (a b c : String) (h1 : strLe a b = true) (h2 : strLe b c = true) :
    strLe a c = true := by
  unfold strLe at h1 h2 ⊢
  rw [Bool.not_eq_true'] at h1 h2 ⊢
  rw [Bool.eq_false_iff]
  intro hca
  rcases charsLt_trichotomy a.data b.data with hab | hab | hab
  · rcases charsLt_trichotomy b.data c.data with hbc | hbc | hbc
    · have hac := charsLt_trans hab hbc
      simp [charsLt_asymm hac] at hca
    · simp [hbc] at h2
    · rw [← hbc] at hca
      simp [hca] at h1
  · simp [hab] at h1
  · rw [hab] at hca
    simp [hca] at h2

theorem strLe_total (a b : String) : (strLe a b || strLe b a) = true := by
  unfold strLe
  rcases charsLt_trichotomy a.data b.data with h | h | h
  · rw [charsLt_asymm h]; simp
  · rw [charsLt_asymm h]; simp
  · rw [h, charsLt_irrefl]; simp

theorem strLt_of_strLe_ne {a b : String} (h : strLe a b = true) (hne : a ≠ b) :
    strLt a b = true := by
  unfold strLe at h
  unfold strLt
  rw [Bool.not_eq_true'] at h
  rcases charsLt_trichotomy a.data b.data with h2 | h2 | h2
  · exact h2
  · rw [h2] at h; exact absurd h (by simp)
  · exfalso
    apply hne
    cases a; cases b
    exact congrArg String.mk (by simpa using h2)

theorem sortedUnion_pairwise (snap : Snapshot) :
    (sortedUnion snap).Pairwise (fun a b => strLt a b = true) := by
  haveI : IsTotal String (fun a b => strLe a b = true) :=
    ⟨fun a b => Bool.or_eq_true_iff.mp (strLe_total a b)⟩
  haveI : IsTrans String (fun a b => strLe a b = true) :=
    ⟨fun a b c h1 h2 => strLe_trans a b c h1 h2⟩
  have hs : (sortedUnion snap).Pairwise (fun a b => strLe a b = true) :=
    List.sorted_insertionSort _ _
  have hn : (sortedUnion snap).Nodup := by
    unfold sortedUnion
    exact List.Perm.nodup (List.perm_insertionSort _ _).symm (List.nodup_dedup _)
  exact (hs.and hn).imp (fun hab => strLt_of_strLe_ne hab.1 hab.2)

/-- The rendered entries generated by one pass (the `modSetHTML` pushes of
the loop, complete or aborted). -/
def passLines (snap : Snapshot) : List Line :=
  (processNames snap (sortedUnion snap) initLoopState).2.lines

theorem processNames_records_lt (snap : Snapshot) (c : String)
    (hcsv : strEndsWith c ".csv" = true) :
    ∀ (l : List String) (st : LoopState),
      l.Pairwise (fun a b => strLt a b = true) → c ∈ l →
      ∀ r ∈ (processNames snap l st).2.records, r ∈ st.records ∨ strLt r.1 c = true := by
  intro l
  induction l with
  | nil => intro st _ hc; exact absurd hc (List.not_mem_nil c)
  | cons n rest ih =>
    intro st hpw hc r hr
    by_cases hn : strEndsWith n ".csv" = true
    · simp only [processNames, hn, if_true] at hr
      exact Or.inl hr
    · have hcr : c ∈ rest := by
        rcases List.mem_cons.mp hc with h | h
        · exact absurd (h ▸ hcsv) hn
        · exact h
      have hnc : strLt n c = true := (List.pairwise_cons.mp hpw).1 c hcr
      simp only [processNames, hn, Bool.false_eq_true, if_false] at hr
      rcases ih (processOne snap st n) (List.pairwise_cons.mp hpw).2 hcr r hr with h | h
      · rcases (by simpa [processOne] using h :
            r ∈ st.records ∨ r = (n, mkDetail snap n)) with h2 | h2
        · exact Or.inl h2
        · right; rw [h2]; exact hnc
      · exact Or.inr h

theorem processNames_lines_lt (snap : Snapshot) (c : String)
    (hcsv : strEndsWith c ".csv" = true) :
    ∀ (l : List String) (st : LoopState),
      l.Pairwise (fun a b => strLt a b = true) → c ∈ l →
      ∀ e ∈ (processNames snap l st).2.lines, e ∈ st.lines ∨ strLt e.name c = true := by
  intro l
  induction l with
  | nil => intro st _ hc; exact absurd hc (List.not_mem_nil c)
  | cons n rest ih =>
    intro st hpw hc e he
    by_cases hn : strEndsWith n ".csv" = true
    · simp only [processNames, hn, if_true] at he
      exact Or.inl he
    · have hcr : c ∈ rest := by
        rcases List.mem_cons.mp hc with h | h
        · exact absurd (h ▸ hcsv) hn
        · exact h
      have hnc : strLt n c = true := (List.pairwise_cons.mp hpw).1 c hcr
      simp only [processNames, hn, Bool.false_eq_true, if_false] at he
      rcases ih (processOne snap st n) (List.pairwise_cons.mp hpw).2 hcr e he with h | h
      · rcases (by simpa [processOne] using h :
            e ∈ st.lines ∨ e = makeLine n (mkDetail snap n) snap.savegame.singleFarm
              (hubLookup snap n)) with h2 | h2
        · exact Or.inl h2
        · right; rw [h2]; exact hnc
      · exact Or.inr h

/-- C4: when the sorted mod-name union contains a name ending in `.csv`,
the pass stops there: every record that was generated, and every entry that
was pushed for rendering, belongs to a name strictly before the `.csv`
name in sort order — no name sorted after it is ever processed. -/
theorem csv_halts_record_generation (snap : Snapshot) (c : String)
    (hc : c ∈ sortedUnion snap) (hcsv : strEndsWith c ".csv" = true) :
    (∀ r ∈ passRecords snap, strLt r.1 c = true) ∧
    (∀ e ∈ passLines snap, strLt e.name c = true) := by
  constructor
  · intro r hr
    rcases processNames_records_lt snap c hcsv (sortedUnion snap) initLoopState
        (sortedUnion_pairwise snap) hc r hr with h | h
    · simp [initLoopState] at h
    · exact h
  · intro e he
    rcases processNames_lines_lt snap c hcsv (sortedUnion snap) initLoopState
        (sortedUnion_pairwise snap) hc e he with h | h
    · simp [initLoopState] at h
    · exact h

theorem second_push_fully_replaces_witness :
    (∀ n ∈ sortedUnion snapTwo, strEndsWith n ".csv" = false) ∧
    renderPass (renderPass initUIState snapOne) snapTwo = renderPass initUIState snapTwo :=
  ⟨by decide, second_push_fully_replaces initUIState snapOne snapTwo (by decide)⟩

theorem versionMismatch_iff_versions_differ_witness :
    saveLookup snapOne "modA" =
      some { version := "1.0.0.0", title := "Mod A", farms := ["f1"] } ∧
    haveLookup snapOne "modA" =
      some { shortName := "modA"
             modDesc := { version := "1.1.0.0", storeItems := 1, scriptFiles := 0 }
             title := "Mod A", uuid := some "u1" } ∧
    ((mkDetail snapOne "modA").versionMismatch = true ↔
      ("1.0.0.0" : String) ≠ "1.1.0.0") :=
  ⟨by decide, by decide,
   versionMismatch_iff_versions_differ snapOne "modA"
     { version := "1.0.0.0", title := "Mod A", farms := ["f1"] }
     { shortName := "modA"
       modDesc := { version := "1.1.0.0", storeItems := 1, scriptFiles := 0 }
       title := "Mod A", uuid := some "u1" }
     (by decide) (by decide)⟩

theorem csv_halts_record_generation_witness :
    "beta.csv" ∈ sortedUnion snapCsv ∧ strEndsWith "beta.csv" ".csv" = true ∧
    ((∀ r ∈ passRecords snapCsv, strLt r.1 "beta.csv" = true) ∧
     (∀ e ∈ passLines snapCsv, strLt e.name "beta.csv" = true)) :=
  ⟨by decide, by decide,
   csv_halts_record_generation snapCsv "beta.csv" (by decide) (by decide)⟩

theorem clientChangeFilter_conjunctive_witness :
    (∀ p ∈ clientChangeFilter ([] : List String) [sampleLine], p.2 = true) ∧
    (∀ p ∈ clientChangeFilter ["dlc", "missing"] [sampleLine],
      (p.2 = true ↔
        ∀ f ∈ filterNames, f ∈ (["dlc", "missing"] : List String) →
          f ∈ p.1.badges.map Prod.fst)) :=
  clientChangeFilter_conjunctive ["dlc", "missing"] [sampleLine]

theorem csv_abort_leaves_dom_unchanged_witness :
    "beta.csv" ∈ sortedUnion snapCsv ∧ strEndsWith "beta.csv" ".csv" = true ∧
    ((renderPass (renderPass initUIState snapOne) snapCsv).modListDOM =
        (renderPass initUIState snapOne).modListDOM ∧
     (renderPass (renderPass initUIState snapOne) snapCsv).displayedCounts =
        (renderPass initUIState snapOne).displayedCounts) :=
  ⟨by decide, by decide,
   csv_abort_leaves_dom_unchanged (renderPass initUIState snapOne) snapCsv "beta.csv"
     (by decide) (by decide)⟩

theorem pdlc_always_present_never_missing_witness :
    strStartsWith "pdlc_claasPack" "pdlc_" = true ∧
    ((mkDetail snapTwo "pdlc_claasPack").isPresent = true ∧
     ¬ "missing" ∈
        ((makeLine "pdlc_claasPack" (mkDetail snapTwo "pdlc_claasPack") false none).badges.map
          Prod.fst) ∧
     (makeLine "pdlc_claasPack" (mkDetail snapTwo "pdlc_claasPack") false none).colorClass ≠
        "list-group-item-danger") :=
  ⟨by decide,
   pdlc_always_present_never_missing snapTwo "pdlc_claasPack" false none (by decide)⟩
